import Mathlib

/-!
# Verification of the `dino` multi-backend chat client

Shallow embedding of the Go sources of the `dino` repository
(`internal/providers/gemini.go`, `internal/providers/ollama.go`,
`internal/providers/openai.go`, `internal/providers/option.go`,
`internal/utils/*.go`) together with proofs about the embedded code.

Modelling conventions:
* Go strings are modelled as `List Char` (one `Char` per byte; all inputs of
  interest are ASCII, and the byte-level escape helpers treat a character's
  code point as its byte value).
* Library calls made by the repository (JSON decoding, MIME sniffing,
  base64) are modelled as explicit function parameters, so every theorem
  quantifies over their behaviour.
* Stateful callbacks (`onDelta func(string, string) error`) are modelled as
  state-threading functions `σ → content → thinking → σ × Option ε`, and the
  runners additionally record the trace of invocations so that ordering
  claims can be stated.
-/

namespace Dino

/-- Convert a Lean string literal to the `List Char` representation used by
the embedding. -/
def str (s : String) : List Char := s.data

/-- Go `unicode.IsSpace`, restricted to the Latin-1 range (space, tab,
newline, vertical tab, form feed, carriage return, NEL, NBSP).  All inputs
appearing in the claims are ASCII. -/
def goIsSpace (c : Char) : Bool :=
  c = ' ' || c = '\t' || c = '\n' || c.toNat = 11 || c.toNat = 12 || c = '\r' ||
  c.toNat = 133 || c.toNat = 160

/-- Drop the longest suffix whose characters satisfy `p` (helper for Go's
`strings.TrimRight` with a fixed cutset). -/
def dropRightWhile (p : Char → Bool) (l : List Char) : List Char :=
  (l.reverse.dropWhile p).reverse

/-- Go `strings.TrimSpace`. -/
def trimSpace (l : List Char) : List Char :=
  dropRightWhile goIsSpace (l.dropWhile goIsSpace)

/-- Go `strings.TrimRight(line, "\r\n")`. -/
def trimRightCRLF (l : List Char) : List Char :=
  dropRightWhile (fun c => c = '\r' || c = '\n') l

/-- Go `strings.TrimRight(b, "/")`. -/
def trimRightSlash (l : List Char) : List Char :=
  dropRightWhile (fun c => c = '/') l

/-- Go `strings.ToLower` (ASCII case folding; all relevant inputs are
ASCII). -/
def toLowerStr (l : List Char) : List Char := l.map Char.toLower

/-! ## The line discipline of `bufio.Reader.ReadString('\n')`

`readSSEStream` (gemini.go) reads the response body through a
`bufio.Reader`, one `'\n'`-terminated line at a time.  `splitNL` extracts
the `'\n'`-terminated lines of a byte sequence (each returned line keeps its
final `'\n'`, exactly as `ReadString` returns it) together with the unread
remainder; `chunkedLines` models the same reader when the underlying
transport delivers the bytes in separate chunks: the reader buffers the
residue of each chunk and extracts complete lines as they become
available.  A final partial line (no `'\n'` before end-of-input) is
returned by `ReadString` together with `io.EOF`, and `readSSEStream`
discards it (it only consults the accumulated data buffer on a read error),
so neither function reports the leftover as a line. -/

/-- Split off the `'\n'`-terminated lines; `acc` holds the (reversed)
characters of the line currently being read. -/
def splitNLAux (acc : List Char) : List Char → List (List Char) × List Char
  | [] => ([], acc.reverse)
  | c :: cs =>
    if c = '\n' then
      ((acc.reverse ++ ['\n']) :: (splitNLAux [] cs).1, (splitNLAux [] cs).2)
    else splitNLAux (c :: acc) cs

/-- The `'\n'`-terminated lines of a byte sequence and the unread
remainder. -/
def splitNL (l : List Char) : List (List Char) × List Char := splitNLAux [] l

/-- The sequence of complete lines delivered by a buffering reader fed one
chunk at a time (`buf` is the residue carried over from earlier chunks). -/
def chunkedLines (buf : List Char) : List (List Char) → List (List Char)
  | [] => (splitNL buf).1
  | ch :: rest =>
      (splitNL (buf ++ ch)).1 ++ chunkedLines (splitNL (buf ++ ch)).2 rest

theorem splitNLAux_nil (acc : List Char) : splitNLAux acc [] = ([], acc.reverse) := rfl

theorem splitNLAux_cons_nl (acc cs : List Char) :
    splitNLAux acc ('\n' :: cs) =
      ((acc.reverse ++ ['\n']) :: (splitNLAux [] cs).1, (splitNLAux [] cs).2) := by
  simp [splitNLAux]

theorem splitNLAux_cons_other (acc : List Char) (c : Char) (cs : List Char)
    (h : ¬c = '\n') : splitNLAux acc (c :: cs) = splitNLAux (c :: acc) cs := by
  simp [splitNLAux, h]

theorem splitNLAux_append (a : List Char) :
    ∀ (acc b : List Char),
      splitNLAux acc (a ++ b) =
        ((splitNLAux acc a).1 ++
            (splitNLAux (splitNLAux acc a).2.reverse b).1,
          (splitNLAux (splitNLAux acc a).2.reverse b).2) := by
  induction a with
  | nil =>
    intro acc b
    simp [splitNLAux]
  | cons c cs ih =>
    intro acc b
    by_cases hc : c = '\n'
    · subst hc
      rw [List.cons_append, splitNLAux_cons_nl, splitNLAux_cons_nl, ih [] b]
      simp
    · rw [List.cons_append, splitNLAux_cons_other acc c (cs ++ b) hc,
        splitNLAux_cons_other acc c cs hc, ih (c :: acc) b]

theorem splitNLAux_no_nl (a : List Char) (h : ∀ c ∈ a, ¬c = '\n') :
    ∀ (acc x : List Char), splitNLAux acc (a ++ x) = splitNLAux (a.reverse ++ acc) x := by
  induction a with
  | nil => intro acc x; simp
  | cons c cs ih =>
    intro acc x
    have hc : ¬c = '\n' := h c (by simp)
    have hcs : ∀ c ∈ cs, ¬c = '\n' := fun d hd => h d (by simp [hd])
    rw [List.cons_append, splitNLAux_cons_other acc c (cs ++ x) hc, ih hcs (c :: acc) x]
    simp

theorem splitNLAux_leftover_no_nl :
    ∀ (l acc : List Char), (∀ c ∈ acc, ¬c = '\n') →
      ∀ c ∈ (splitNLAux acc l).2, ¬c = '\n' := by
  intro l
  induction l with
  | nil =>
    intro acc hacc c hc
    simp only [splitNLAux] at hc
    exact hacc c (List.mem_reverse.mp hc)
  | cons d ds ih =>
    intro acc hacc c hc
    by_cases hd : d = '\n'
    · subst hd
      simp only [splitNLAux, if_pos rfl] at hc
      exact ih [] (by simp) c hc
    · simp only [splitNLAux, if_neg hd] at hc
      refine ih (d :: acc) ?_ c hc
      intro e he
      rcases List.mem_cons.mp he with h1 | h2
      · subst h1; exact hd
      · exact hacc e h2

theorem splitNL_append (a b : List Char) :
    splitNL (a ++ b) =
      ((splitNL a).1 ++ (splitNL ((splitNL a).2 ++ b)).1,
        (splitNL ((splitNL a).2 ++ b)).2) := by
  have h := splitNLAux_append a [] b
  have hno : ∀ c ∈ (splitNL a).2, ¬c = '\n' :=
    splitNLAux_leftover_no_nl a [] (by simp)
  have hrw : splitNL ((splitNL a).2 ++ b) = splitNLAux (splitNL a).2.reverse b := by
    have := splitNLAux_no_nl (splitNL a).2 hno [] b
    simpa [splitNL] using this
  rw [splitNL, h, hrw]
  rfl

/-- The buffering chunked reader delivers exactly the lines of the
concatenated byte stream. -/
theorem chunkedLines_eq_join (chunks : List (List Char)) :
    ∀ buf, chunkedLines buf chunks = (splitNL (buf ++ chunks.flatten)).1 := by
  induction chunks with
  | nil => intro buf; simp [chunkedLines]
  | cons ch rest ih =>
    intro buf
    simp only [chunkedLines, List.flatten, ih]
    rw [← List.append_assoc buf ch rest.flatten,
      splitNL_append (buf ++ ch) rest.flatten]

/-! ## Gemini response data model (struct declarations in gemini.go) -/

/-- `geminiInlineData`. -/
structure GeminiInlineData where
  mimeType : List Char
  data : List Char
deriving DecidableEq

/-- `geminiPart` (response side: only `Text` is consulted by emission). -/
structure GeminiPart where
  text : List Char
  inlineData : Option GeminiInlineData := none
deriving DecidableEq

/-- `geminiContent`. -/
structure GeminiContent where
  role : List Char := []
  parts : List GeminiPart
deriving DecidableEq

/-- `geminiCandidate`. -/
structure GeminiCandidate where
  content : GeminiContent
deriving DecidableEq

/-- `geminiErrorPayload`. -/
structure GeminiErrorPayload where
  code : Int
  status : List Char
  message : List Char
deriving DecidableEq

/-- `geminiGenerateResponse`. -/
structure GeminiGenerateResponse where
  candidates : List GeminiCandidate
  error : Option GeminiErrorPayload
deriving DecidableEq

/-- `geminiError` (the error envelope checked by `checkGeminiResponse`). -/
structure GeminiError where
  error : Option GeminiErrorPayload
deriving DecidableEq

/-! ## Callback and dispatch model

A Go `onDelta func(content, thinking string) error` may close over mutable
state, so it is modelled as a state-threading function.  `ε` is the type of
error values the callback can return; the client must hand back the very
value the callback produced. -/

/-- The delta callback: current state, content, thinking ↦ new state and
optional error. -/
def OnDelta (σ ε : Type) : Type := σ → List Char → List Char → σ × Option ε

/-- The result of `json.Unmarshal` into `geminiGenerateResponse`, as an
abstract decoder (`none` = unmarshal error). -/
def GeminiDecode : Type := List Char → Option GeminiGenerateResponse

/-- Errors that `readSSEStream`/`dispatchSSEData` can return. -/
inductive SSEErr (ε : Type) where
  /-- `json.Unmarshal` failed on this payload (wrapped decode error). -/
  | decodeFailed (payload : List Char)
  /-- the chunk carried an embedded `error` object, returned directly. -/
  | upstream (e : GeminiErrorPayload)
  /-- the callback's error, returned unmodified. -/
  | callback (e : ε)
deriving DecidableEq

/-- Inner loop of `emitGeminiCandidates`: iterate the parts of one
candidate, skip empty text, invoke the callback with empty thinking, stop
at the first callback error.  Also records the trace of (content, thinking)
invocations. -/
def emitParts {σ ε : Type} (onDelta : OnDelta σ ε) :
    σ → List GeminiPart → σ × List (List Char × List Char) × Option ε
  | s, [] => (s, [], none)
  | s, p :: ps =>
    if p.text = [] then emitParts onDelta s ps
    else
      match onDelta s p.text [] with
      | (s', some e) => (s', [(p.text, [])], some e)
      | (s', none) =>
        match emitParts onDelta s' ps with
        | (s'', tr, r) => (s'', (p.text, []) :: tr, r)

/-- `emitGeminiCandidates` (gemini.go): nested loop over candidates and
their parts. -/
def emitGeminiCandidates {σ ε : Type} (onDelta : OnDelta σ ε) :
    σ → List GeminiCandidate → σ × List (List Char × List Char) × Option ε
  | s, [] => (s, [], none)
  | s, cand :: rest =>
    match emitParts onDelta s cand.content.parts with
    | (s', tr, some e) => (s', tr, some e)
    | (s', tr, none) =>
      match emitGeminiCandidates onDelta s' rest with
      | (s'', tr', r) => (s'', tr ++ tr', r)

/-- The done sentinel `"[DONE]"`. -/
def doneSentinel : List Char := str "[DONE]"

/-- `dispatchSSEData` (gemini.go): trim, ignore empty / done sentinel,
decode, surface an embedded error, otherwise emit candidates. -/
def dispatchSSEData {σ ε : Type} (decode : GeminiDecode) (onDelta : OnDelta σ ε)
    (s : σ) (payload : List Char) :
    σ × List (List Char × List Char) × Option (SSEErr ε) :=
  let trimmed := trimSpace payload
  if trimmed = [] ∨ trimmed = doneSentinel then (s, [], none)
  else
    match decode trimmed with
    | none => (s, [], some (.decodeFailed trimmed))
    | some chunk =>
      match chunk.error with
      | some e => (s, [], some (.upstream e))
      | none =>
        match emitGeminiCandidates onDelta s chunk.candidates with
        | (s', tr, r) => (s', tr, Option.map SSEErr.callback r)

/-- The SSE `data:` field marker. -/
def dataFieldMark : List Char := str "data:"

/-- Result of processing one line (`processSSELine`): new callback state,
new accumulation buffer, payloads handed to `dispatchSSEData`
(instrumentation), callback invocations, the `done` flag, and the error. -/
structure SSEStep (σ ε : Type) where
  state : σ
  buf : List Char
  dispatched : List (List Char)
  calls : List (List Char × List Char)
  done : Bool
  err : Option (SSEErr ε)

/-- `processSSELine` (gemini.go).  The Go function mutates `dataBuf` and
returns `(done, err)`; here the buffer is threaded explicitly and the
dispatch/callback activity is recorded. -/
def processSSELine {σ ε : Type} (decode : GeminiDecode) (onDelta : OnDelta σ ε)
    (s : σ) (buf : List Char) (line : List Char) : SSEStep σ ε :=
  let l := trimRightCRLF line
  if dataFieldMark.isPrefixOf l then
    let segment := trimSpace (l.drop dataFieldMark.length)
    { state := s
      buf := if buf = [] then segment else buf ++ '\n' :: segment
      dispatched := []
      calls := []
      done := false
      err := none }
  else if l = [] ∧ buf ≠ [] then
    match dispatchSSEData decode onDelta s buf with
    | (s', tr, some e) =>
      { state := s', buf := buf, dispatched := [buf], calls := tr, done := true, err := some e }
    | (s', tr, none) =>
      { state := s', buf := [], dispatched := [buf], calls := tr, done := false, err := none }
  else
    { state := s, buf := buf, dispatched := [], calls := [], done := false, err := none }

/-- Observable outcome of a whole stream read: final callback state, the
payloads dispatched, the callback invocations, and the returned error
(`none` = the Go function returned `nil`). -/
structure SSERun (σ ε : Type) where
  state : σ
  dispatched : List (List Char)
  calls : List (List Char × List Char)
  err : Option (SSEErr ε)
deriving DecidableEq

/-- The loop of `readSSEStream` over the sequence of complete lines
delivered by the buffered reader, ending with `handleSSEReadError` at
`io.EOF` (the only read error a pure in-memory body can produce): an empty
accumulation buffer returns `nil`, a non-empty one is dispatched once. -/
def runSSELines {σ ε : Type} (decode : GeminiDecode) (onDelta : OnDelta σ ε) :
    σ → List Char → List (List Char) → SSERun σ ε
  | s, buf, [] =>
    if buf = [] then { state := s, dispatched := [], calls := [], err := none }
    else
      match dispatchSSEData decode onDelta s buf with
      | (s', tr, r) => { state := s', dispatched := [buf], calls := tr, err := r }
  | s, buf, line :: rest =>
    let st := processSSELine decode onDelta s buf line
    if st.done || st.err.isSome then
      { state := st.state, dispatched := st.dispatched, calls := st.calls, err := st.err }
    else
      let r := runSSELines decode onDelta st.state st.buf rest
      { state := r.state
        dispatched := st.dispatched ++ r.dispatched
        calls := st.calls ++ r.calls
        err := r.err }

/-- `readSSEStream` (gemini.go) with the response body delivered as a list
of transport chunks: the buffered reader turns the chunks into
`'\n'`-terminated lines, which the line loop consumes. -/
def readSSEStream {σ ε : Type} (decode : GeminiDecode) (onDelta : OnDelta σ ε)
    (s : σ) (chunks : List (List Char)) : SSERun σ ε :=
  runSSELines decode onDelta s [] (chunkedLines [] chunks)

/-- A decoder that always reports a JSON decode failure (used only to build
concrete witnesses). -/
def noDecode : GeminiDecode := fun _ => none

/-- A stateless callback that always succeeds (used only to build concrete
witnesses). -/
def okDelta : OnDelta Unit Unit := fun s _ _ => (s, none)

/-- C1: the manual client's SSE reader, processing the response body line
by line, appends each data-prefixed line's trimmed remainder to the
accumulation buffer (inserting a newline separator when the buffer is
non-empty) and keeps reading; on a blank line with a non-empty buffer it
dispatches the buffer and clears it (stopping if the dispatch fails);
every other line is ignored; and at end-of-input a non-empty buffer is
dispatched exactly once while an empty buffer yields no dispatch and no
error. -/
theorem sse_reader_line_discipline {σ ε : Type}
    (decode : GeminiDecode) (onDelta : OnDelta σ ε)
    (s : σ) (buf line : List Char) (rest : List (List Char)) :
    (dataFieldMark.isPrefixOf (trimRightCRLF line) = true →
      runSSELines decode onDelta s buf (line :: rest) =
        runSSELines decode onDelta s
          (if buf = [] then trimSpace ((trimRightCRLF line).drop dataFieldMark.length)
           else buf ++ '\n' :: trimSpace ((trimRightCRLF line).drop dataFieldMark.length))
          rest) ∧
    (trimRightCRLF line = [] → buf ≠ [] →
      runSSELines decode onDelta s buf (line :: rest) =
        match dispatchSSEData decode onDelta s buf with
        | (s', tr, some e) =>
          { state := s', dispatched := [buf], calls := tr, err := some e }
        | (s', tr, none) =>
          let r := runSSELines decode onDelta s' [] rest
          { state := r.state, dispatched := buf :: r.dispatched,
            calls := tr ++ r.calls, err := r.err }) ∧
    (dataFieldMark.isPrefixOf (trimRightCRLF line) = false →
      ¬(trimRightCRLF line = [] ∧ buf ≠ []) →
      runSSELines decode onDelta s buf (line :: rest) =
        runSSELines decode onDelta s buf rest) ∧
    (buf ≠ [] →
      runSSELines decode onDelta s buf [] =
        match dispatchSSEData decode onDelta s buf with
        | (s', tr, r) => { state := s', dispatched := [buf], calls := tr, err := r }) ∧
    runSSELines decode onDelta s [] [] =
      { state := s, dispatched := [], calls := [], err := none } := by
  refine ⟨?_, ?_, ?_, ?_, ?_⟩
  · intro h
    simp only [runSSELines, processSSELine, h]
    simp
  · intro hblank hbuf
    simp only [runSSELines, processSSELine, hblank]
    rcases hd : dispatchSSEData decode onDelta s buf with ⟨s', tr, r⟩
    cases r with
    | none => simp [hbuf, hd, dataFieldMark, str]
    | some e => simp [hbuf, hd, dataFieldMark, str]
  · intro hpre hother
    simp only [runSSELines, processSSELine, hpre]
    by_cases hblank : trimRightCRLF line = []
    · have hbuf : buf = [] := by
        by_contra hb
        exact hother ⟨hblank, hb⟩
      simp [hblank, hbuf]
    · simp [hblank]
  · intro hbuf
    rcases hd : dispatchSSEData decode onDelta s buf with ⟨s', tr, r⟩
    simp [runSSELines, hbuf, hd]
  · rfl

/-- Witness for C1 at concrete inputs (a data line appended to a non-empty
buffer, and the end-of-input dispatch of a non-empty buffer). -/
theorem sse_reader_line_discipline_witness :
    (runSSELines noDecode okDelta () (str "x") [str "data: y\r\n"] =
      runSSELines noDecode okDelta ()
        (if str "x" = [] then trimSpace ((trimRightCRLF (str "data: y\r\n")).drop dataFieldMark.length)
         else str "x" ++ '\n' :: trimSpace ((trimRightCRLF (str "data: y\r\n")).drop dataFieldMark.length))
        []) ∧
    (runSSELines noDecode okDelta () (str "x") [] =
      match dispatchSSEData noDecode okDelta () (str "x") with
      | (s', tr, r) => { state := s', dispatched := [str "x"], calls := tr, err := r }) :=
  ⟨(sse_reader_line_discipline noDecode okDelta () (str "x") (str "data: y\r\n") []).1
      (by decide),
    (sse_reader_line_discipline noDecode okDelta () (str "x") (str "") []).2.2.2.1
      (by decide)⟩

/-! ## Characterizing the emission order

`emitGeminiCandidates` is a nested loop; the lemmas below flatten it to a
single pass over the list of non-empty candidate texts in encounter order
(candidate order, then part order within a candidate). -/

/-- The texts the emission loop offers to the callback: every part text,
candidate order then part order, with empty texts skipped. -/
def geminiTexts (cands : List GeminiCandidate) : List (List Char) :=
  ((cands.map fun c => c.content.parts).flatten.filter
    fun p => decide (¬p.text = [])).map fun p => p.text

/-- Reference machine: feed a list of texts to the callback one by one,
stopping at the first error. -/
def emitTexts {σ ε : Type} (onDelta : OnDelta σ ε) :
    σ → List (List Char) → σ × List (List Char × List Char) × Option ε
  | s, [] => (s, [], none)
  | s, t :: ts =>
    match onDelta s t [] with
    | (s', some e) => (s', [(t, [])], some e)
    | (s', none) =>
      match emitTexts onDelta s' ts with
      | (s'', tr, r) => (s'', (t, []) :: tr, r)

theorem emitTexts_append_err {σ ε : Type} (onDelta : OnDelta σ ε) (l₁ : List (List Char)) :
    ∀ (s s' : σ) (tr : List (List Char × List Char)) (e : ε) (l₂ : List (List Char)),
      emitTexts onDelta s l₁ = (s', tr, some e) →
      emitTexts onDelta s (l₁ ++ l₂) = (s', tr, some e) := by
  induction l₁ with
  | nil => intro s s' tr e l₂ h; simp [emitTexts] at h
  | cons t ts ih =>
    intro s s' tr e l₂ h
    rcases h₀ : onDelta s t [] with ⟨sa, r⟩
    cases r with
    | some e' =>
      rw [List.cons_append]
      simp only [emitTexts, h₀] at h ⊢
      exact h
    | none =>
      rcases h₁ : emitTexts onDelta sa ts with ⟨s₁, tr₁, r₁⟩
      simp only [emitTexts, h₀, h₁] at h
      have hr : r₁ = some e := by
        have := congrArg (fun p => p.2.2) h; simpa using this
      have hts : emitTexts onDelta sa ts = (s₁, tr₁, some e) := by rw [h₁, hr]
      rw [List.cons_append]
      simp only [emitTexts, h₀, ih sa s₁ tr₁ e l₂ hts]
      rw [← h, hr]

theorem emitTexts_append_ok {σ ε : Type} (onDelta : OnDelta σ ε) (l₁ : List (List Char)) :
    ∀ (s s' : σ) (tr : List (List Char × List Char)) (l₂ : List (List Char)),
      emitTexts onDelta s l₁ = (s', tr, none) →
      emitTexts onDelta s (l₁ ++ l₂) =
        ((emitTexts onDelta s' l₂).1, tr ++ (emitTexts onDelta s' l₂).2.1,
          (emitTexts onDelta s' l₂).2.2) := by
  induction l₁ with
  | nil =>
    intro s s' tr l₂ h
    obtain ⟨rfl, rfl, -⟩ : s = s' ∧ ([] : List (List Char × List Char)) = tr ∧ True := by
      simpa [emitTexts] using h
    simp
  | cons t ts ih =>
    intro s s' tr l₂ h
    rcases h₀ : onDelta s t [] with ⟨sa, r⟩
    cases r with
    | some e' => simp [emitTexts, h₀] at h
    | none =>
      rcases h₁ : emitTexts onDelta sa ts with ⟨s₁, tr₁, r₁⟩
      simp only [emitTexts, h₀, h₁] at h
      have hr : r₁ = none := by
        have := congrArg (fun p => p.2.2) h; simpa using this
      have hs : s₁ = s' := by
        have := congrArg (fun p => p.1) h; simpa using this
      have htr : (t, ([] : List Char)) :: tr₁ = tr := by
        have := congrArg (fun p => p.2.1) h; simpa using this
      have hts : emitTexts onDelta sa ts = (s₁, tr₁, none) := by rw [h₁, hr]
      rw [List.cons_append]
      simp only [emitTexts, h₀, ih sa s₁ tr₁ l₂ hts]
      subst hs htr
      simp

theorem emitParts_eq_emitTexts {σ ε : Type} (onDelta : OnDelta σ ε)
    (ps : List GeminiPart) : ∀ s : σ,
    emitParts onDelta s ps =
      emitTexts onDelta s ((ps.filter fun p => decide (¬p.text = [])).map fun p => p.text) := by
  induction ps with
  | nil => intro s; rfl
  | cons p ps ih =>
    intro s
    by_cases hp : p.text = []
    · simp [emitParts, hp, List.filter_cons, ih s]
    · rcases h : onDelta s p.text [] with ⟨s', r⟩
      cases r with
      | some e => simp [emitParts, hp, List.filter_cons, emitTexts, h]
      | none =>
        have ih' := ih s'
        rcases h₁ : emitParts onDelta s' ps with ⟨s₁, tr₁, r₁⟩
        rw [h₁] at ih'
        rcases h₂ : emitTexts onDelta s'
            ((ps.filter fun p => decide (¬p.text = [])).map fun p => p.text) with ⟨s₂, tr₂, r₂⟩
        rw [h₂] at ih'
        obtain ⟨rfl, rfl, rfl⟩ : s₁ = s₂ ∧ tr₁ = tr₂ ∧ r₁ = r₂ := by simpa using ih'
        simp only [decide_not] at h₂
        simp [emitParts, hp, List.filter_cons, emitTexts, h, h₁, h₂]

theorem emitCandidates_eq_emitTexts {σ ε : Type} (onDelta : OnDelta σ ε)
    (cands : List GeminiCandidate) : ∀ s : σ,
    emitGeminiCandidates onDelta s cands = emitTexts onDelta s (geminiTexts cands) := by
  induction cands with
  | nil => intro s; rfl
  | cons cand rest ih =>
    intro s
    have hsplit : geminiTexts (cand :: rest) =
        ((cand.content.parts.filter fun p => decide (¬p.text = [])).map fun p => p.text) ++
          geminiTexts rest := by
      simp [geminiTexts]
    rw [hsplit]
    rcases h : emitParts onDelta s cand.content.parts with ⟨s', tr, r⟩
    have hl : emitTexts onDelta s
        ((cand.content.parts.filter fun p => decide (¬p.text = [])).map fun p => p.text) =
        (s', tr, r) := by
      rw [← emitParts_eq_emitTexts, h]
    cases r with
    | some e =>
      rw [emitTexts_append_err onDelta _ s s' tr e _ hl]
      simp [emitGeminiCandidates, h]
    | none =>
      rw [emitTexts_append_ok onDelta _ s s' tr _ hl]
      have ih' := ih s'
      rcases h₁ : emitGeminiCandidates onDelta s' rest with ⟨s₁, tr₁, r₁⟩
      rw [h₁] at ih'
      simp [emitGeminiCandidates, h, h₁, ← ih']

theorem emitTexts_ok {σ ε : Type} (onDelta : OnDelta σ ε)
    (hok : ∀ (s : σ) (c t : List Char), (onDelta s c t).2 = none) (ts : List (List Char)) :
    ∀ s : σ, (emitTexts onDelta s ts).2.1 = ts.map (fun t => (t, ([] : List Char))) ∧
      (emitTexts onDelta s ts).2.2 = none := by
  induction ts with
  | nil => intro s; exact ⟨rfl, rfl⟩
  | cons t ts ih =>
    intro s
    rcases h : onDelta s t [] with ⟨s', r⟩
    have hr : r = none := by have := hok s t []; rw [h] at this; exact this
    subst hr
    rcases h₁ : emitTexts onDelta s' ts with ⟨s₁, tr₁, r₁⟩
    have := ih s'
    rw [h₁] at this
    simp only [emitTexts, h, h₁]
    simpa using this

theorem emitTexts_err {σ ε : Type} (onDelta : OnDelta σ ε) (ts : List (List Char)) :
    ∀ (s : σ) (e : ε), (emitTexts onDelta s ts).2.2 = some e →
      ∃ (n : Nat) (hn : n < ts.length),
        (emitTexts onDelta s ts).2.1 =
          (ts.take (n + 1)).map (fun t => (t, ([] : List Char))) ∧
        ∃ sn s', onDelta sn (ts.get ⟨n, hn⟩) [] = (s', some e) := by
  induction ts with
  | nil => intro s e h; simp [emitTexts] at h
  | cons t ts ih =>
    intro s e h
    rcases h₀ : onDelta s t [] with ⟨s', r⟩
    cases r with
    | some e' =>
      have he : e' = e := by
        simp only [emitTexts, h₀] at h
        exact Option.some.inj h
      subst he
      exact ⟨0, by simp, by simp [emitTexts, h₀], s, s', h₀⟩
    | none =>
      rcases h₁ : emitTexts onDelta s' ts with ⟨s₁, tr₁, r₁⟩
      have hr : r₁ = some e := by
        simp only [emitTexts, h₀, h₁] at h
        exact h
      subst hr
      obtain ⟨n, hn, htr, sn, sn', hcall⟩ := ih s' e (by rw [h₁])
      refine ⟨n + 1, by simpa using Nat.succ_lt_succ hn, ?_, sn, sn', hcall⟩
      rw [h₁] at htr
      simp only [emitTexts, h₀, h₁]
      simpa using htr

/-! ## The OpenAI streaming loop (`handleStreamingChat`, openai.go)

The SDK stream is modelled as the list of chunks `stream.Next()` yields
plus the value `stream.Err()` reports afterwards (`none` = no stream
error).  The wrapping that `formatOpenAIAPIError` applies to a stream
error is represented by the `stream` constructor. -/

/-- A choice delta of a streaming chunk (only `Delta.Content` is read). -/
structure OpenAIChoice where
  content : List Char
deriving DecidableEq

/-- One streaming chunk (`ch.Choices`). -/
structure OpenAIChunk where
  choices : List OpenAIChoice
deriving DecidableEq

/-- Errors `handleStreamingChat` can return: the callback's error
(returned unmodified) or the wrapped stream error. -/
inductive OpenAIStreamErr (ε τ : Type) where
  | callback (e : ε)
  | stream (t : τ)
deriving DecidableEq

/-- `handleStreamingChat` (openai.go): iterate chunks, skip chunks without
choices, trim the first choice's delta content, skip empty content, invoke
the callback, and return its error immediately; after the last chunk,
surface the stream error if any. -/
def handleStreamingChat {σ ε τ : Type} (onDelta : OnDelta σ ε) :
    σ → List OpenAIChunk → Option τ →
      σ × List (List Char × List Char) × Option (OpenAIStreamErr ε τ)
  | s, [], se => (s, [], Option.map OpenAIStreamErr.stream se)
  | s, ch :: rest, se =>
    match ch.choices with
    | [] => handleStreamingChat onDelta s rest se
    | c :: _ =>
      let content := trimSpace c.content
      if content = [] then handleStreamingChat onDelta s rest se
      else
        match onDelta s content [] with
        | (s', some e) => (s', [(content, [])], some (.callback e))
        | (s', none) =>
          match handleStreamingChat onDelta s' rest se with
          | (s'', tr, r) => (s'', (content, []) :: tr, r)

/-- A two-candidate response used only to build concrete witnesses: the
first candidate has one part "Hel", the second an empty-text part followed
by "lo". -/
def demoChunk : GeminiGenerateResponse :=
  { candidates :=
      [⟨⟨str "model", [⟨str "Hel", none⟩]⟩⟩,
        ⟨⟨str "model", [⟨[], none⟩, ⟨str "lo", none⟩]⟩⟩],
    error := none }

/-- A decoder that always returns `demoChunk` (witness helper). -/
def demoDecode : GeminiDecode := fun _ => some demoChunk

/-- A callback that always fails with error `0` (witness helper). -/
def errDelta : OnDelta Unit Nat := fun s _ _ => (s, some 0)

/-- C2: dispatch of a completed SSE payload: the payload is trimmed; an
empty payload or the literal done sentinel "[DONE]" produces zero callback
invocations and no error; a payload parsed into an object carrying an
embedded error returns that error as the terminal error with zero
invocations; otherwise (callback cooperating) the callback is invoked once
per text part with non-empty text, in candidate order and then part order
within each candidate, with an empty thinking argument. -/
theorem sse_dispatch_semantics {σ ε : Type}
    (decode : GeminiDecode) (onDelta : OnDelta σ ε) (s : σ) (payload : List Char) :
    (trimSpace payload = [] ∨ trimSpace payload = doneSentinel →
      dispatchSSEData decode onDelta s payload = (s, [], none)) ∧
    (∀ (chunk : GeminiGenerateResponse) (e : GeminiErrorPayload),
      ¬(trimSpace payload = [] ∨ trimSpace payload = doneSentinel) →
      decode (trimSpace payload) = some chunk → chunk.error = some e →
      dispatchSSEData decode onDelta s payload = (s, [], some (.upstream e))) ∧
    (∀ chunk : GeminiGenerateResponse,
      ¬(trimSpace payload = [] ∨ trimSpace payload = doneSentinel) →
      decode (trimSpace payload) = some chunk → chunk.error = none →
      (∀ (s' : σ) (c t : List Char), (onDelta s' c t).2 = none) →
      (dispatchSSEData decode onDelta s payload).2.1 =
          (geminiTexts chunk.candidates).map (fun t => (t, ([] : List Char))) ∧
        (dispatchSSEData decode onDelta s payload).2.2 = none) := by
  refine ⟨?_, ?_, ?_⟩
  · intro h
    simp [dispatchSSEData, h]
  · intro chunk e hne hdec herr
    simp [dispatchSSEData, hne, hdec, herr]
  · intro chunk hne hdec herr hok
    have hok2 := emitTexts_ok onDelta hok (geminiTexts chunk.candidates) s
    have hEq := emitCandidates_eq_emitTexts onDelta chunk.candidates s
    rcases hE : emitTexts onDelta s (geminiTexts chunk.candidates) with ⟨s₁, tr₁, r₁⟩
    rw [hE] at hok2 hEq
    simp only at hok2
    obtain ⟨htr, hr⟩ := hok2
    constructor
    · simp [dispatchSSEData, hne, hdec, herr, hEq, htr]
    · simp [dispatchSSEData, hne, hdec, herr, hEq, hr]

/-- Witness for C2: a done sentinel payload is a no-op, and a concrete
two-candidate chunk produces one invocation per non-empty text part. -/
theorem sse_dispatch_semantics_witness :
    dispatchSSEData noDecode okDelta () (str " [DONE] ") = ((), [], none) ∧
    (dispatchSSEData demoDecode okDelta () (str "x")).2.1 =
        (geminiTexts demoChunk.candidates).map (fun t => (t, ([] : List Char))) ∧
      (dispatchSSEData demoDecode okDelta () (str "x")).2.2 = none :=
  ⟨(sse_dispatch_semantics noDecode okDelta () (str " [DONE] ")).1 (Or.inr (by decide)),
    (sse_dispatch_semantics demoDecode okDelta () (str "x")).2.2 demoChunk
      (by decide) rfl rfl (fun _ _ _ => rfl)⟩

/-- C3: when the delta callback returns an error, the client stops
consuming input immediately and returns exactly the callback's error:
(1) the Gemini emission loop's trace covers exactly the fragments up to
and including the erring invocation, and the returned error is a value
the callback actually returned on that fragment; (2) once a line's
processing produces an error, the stream run is independent of every
later line and returns that error as is; (3) `dispatchSSEData` passes the
emission result's error through unmodified (a callback error is injected
as is); (4) the OpenAI streaming loop returns the callback's exact error
without consuming the remaining chunks or the stream error. -/
theorem callback_abort_short_circuit {σ ε τ : Type}
    (decode : GeminiDecode) (onDelta : OnDelta σ ε) :
    (∀ (s : σ) (cands : List GeminiCandidate) (e : ε),
      (emitGeminiCandidates onDelta s cands).2.2 = some e →
      ∃ (n : Nat) (hn : n < (geminiTexts cands).length),
        (emitGeminiCandidates onDelta s cands).2.1 =
            ((geminiTexts cands).take (n + 1)).map (fun t => (t, ([] : List Char))) ∧
          ∃ sn s', onDelta sn ((geminiTexts cands).get ⟨n, hn⟩) [] = (s', some e)) ∧
    (∀ (s : σ) (buf line : List Char) (rest rest' : List (List Char)),
      (processSSELine decode onDelta s buf line).err.isSome = true →
      runSSELines decode onDelta s buf (line :: rest) =
          runSSELines decode onDelta s buf (line :: rest') ∧
        (runSSELines decode onDelta s buf (line :: rest)).err =
          (processSSELine decode onDelta s buf line).err) ∧
    (∀ (s : σ) (payload : List Char) (chunk : GeminiGenerateResponse),
      ¬(trimSpace payload = [] ∨ trimSpace payload = doneSentinel) →
      decode (trimSpace payload) = some chunk → chunk.error = none →
      (dispatchSSEData decode onDelta s payload).2.2 =
        Option.map SSEErr.callback (emitGeminiCandidates onDelta s chunk.candidates).2.2) ∧
    (∀ (s s₁ : σ) (e : ε) (ch : OpenAIChunk) (c : OpenAIChoice) (cr : List OpenAIChoice)
        (rest : List OpenAIChunk) (se : Option τ),
      ch.choices = c :: cr → ¬trimSpace c.content = [] →
      onDelta s (trimSpace c.content) [] = (s₁, some e) →
      handleStreamingChat onDelta s (ch :: rest) se =
        (s₁, [(trimSpace c.content, [])], some (.callback e))) := by
  refine ⟨?_, ?_, ?_, ?_⟩
  · intro s cands e h
    have hEq := emitCandidates_eq_emitTexts onDelta cands s
    have h' : (emitTexts onDelta s (geminiTexts cands)).2.2 = some e := by
      rw [← hEq]; exact h
    obtain ⟨n, hn, htr, sn, s', hcall⟩ := emitTexts_err onDelta (geminiTexts cands) s e h'
    exact ⟨n, hn, by rw [hEq]; exact htr, sn, s', hcall⟩
  · intro s buf line rest rest' h
    have hc : ((processSSELine decode onDelta s buf line).done ||
        (processSSELine decode onDelta s buf line).err.isSome) = true := by
      simp [h]
    constructor
    · simp [runSSELines, hc]
    · simp [runSSELines, hc]
  · intro s payload chunk hne hdec herr
    rcases hE : emitGeminiCandidates onDelta s chunk.candidates with ⟨s₁, tr₁, r₁⟩
    simp [dispatchSSEData, hne, hdec, herr, hE]
  · intro s s₁ e ch c cr rest se hch hc hcall
    simp [handleStreamingChat, hch, hc, hcall]

/-- Witness for C3: a callback failing on the first OpenAI chunk aborts
the loop with exactly that error, ignoring the second chunk and the
stream error. -/
theorem callback_abort_short_circuit_witness :
    handleStreamingChat errDelta () [⟨[⟨str " hi "⟩]⟩, ⟨[⟨str "bye"⟩]⟩] (some 5) =
      ((), [(trimSpace (str " hi "), [])], some (.callback 0)) :=
  (callback_abort_short_circuit noDecode errDelta).2.2.2 () () 0 ⟨[⟨str " hi "⟩]⟩
    ⟨str " hi "⟩ [] [⟨[⟨str "bye"⟩]⟩] (some 5) rfl (by decide) rfl

/-- C4: SSE reconstruction is chunk-boundary independent — any two ways of
splitting the same byte stream across read calls produce the same run
(same dispatched payloads, same callback invocations in the same order,
same error); in particular any splitting agrees with a single read. -/
theorem sse_chunk_boundary_independence {σ ε : Type}
    (decode : GeminiDecode) (onDelta : OnDelta σ ε) (s : σ)
    (chunks chunks' : List (List Char)) (h : chunks.flatten = chunks'.flatten) :
    readSSEStream decode onDelta s chunks = readSSEStream decode onDelta s chunks' := by
  unfold readSSEStream
  rw [chunkedLines_eq_join chunks [], chunkedLines_eq_join chunks' []]
  simp only [List.nil_append]
  rw [h]

/-- Witness for C4: delivering an event byte stream in three chunks split
mid-line equals delivering it in one read. -/
theorem sse_chunk_boundary_independence_witness :
    ([str "da", str "ta: a\n", str "\n"] : List (List Char)).flatten =
        [str "data: a\n\n"].flatten ∧
    readSSEStream noDecode okDelta () [str "da", str "ta: a\n", str "\n"] =
      readSSEStream noDecode okDelta () [str "data: a\n\n"] :=
  ⟨by decide,
    sse_chunk_boundary_independence noDecode okDelta ()
      [str "da", str "ta: a\n", str "\n"] [str "data: a\n\n"] (by decide)⟩

/-! ## URL escaping (`net/url`), byte-level model

`url.QueryEscape` and `url.PathEscape` operate on bytes; the model treats
each `Char` as one byte (all inputs of interest are ASCII). -/

/-- Uppercase hex digit for a value `< 16`. -/
def hexDigit (n : Nat) : Char :=
  if n < 10 then Char.ofNat (48 + n) else Char.ofNat (55 + n)

/-- `%XX` percent-encoding of one byte. -/
def percentEncode (c : Char) : List Char :=
  ['%', hexDigit (c.toNat / 16 % 16), hexDigit (c.toNat % 16)]

/-- RFC 3986 unreserved characters (never escaped by `net/url`). -/
def isUnreserved (c : Char) : Bool :=
  (97 ≤ c.toNat && c.toNat ≤ 122) || (65 ≤ c.toNat && c.toNat ≤ 90) ||
  (48 ≤ c.toNat && c.toNat ≤ 57) || c = '-' || c = '_' || c = '.' || c = '~'

/-- `url.QueryEscape`: unreserved kept, space becomes `+`, all else
percent-encoded. -/
def queryEscape (l : List Char) : List Char :=
  (l.map fun c =>
    if isUnreserved c then [c]
    else if c = ' ' then ['+']
    else percentEncode c).flatten

/-- `url.PathEscape` (path-segment mode): unreserved and
`$ & + : = @` kept, all else percent-encoded. -/
def pathEscape (l : List Char) : List Char :=
  (l.map fun c =>
    if isUnreserved c || c = '$' || c = '&' || c = '+' || c = ':' || c = '=' || c = '@'
    then [c]
    else percentEncode c).flatten

/-! ## The Gemini provider: construction, endpoint, authentication -/

/-- The `Gemini` provider struct (gemini.go).  The `http.Client` handle is
omitted: it carries no request-relevant state. -/
structure Gemini where
  baseURL : List Char
  apiKey : List Char
  authType : List Char
deriving DecidableEq

/-- `defaultGeminiBaseURL`. -/
def defaultGeminiBaseURL : List Char :=
  str "https://generativelanguage.googleapis.com/v1beta"

/-- `normalizeGeminiBaseURL` (gemini.go). -/
def normalizeGeminiBaseURL (base : List Char) : List Char :=
  let b := trimSpace base
  if b = [] then defaultGeminiBaseURL
  else
    let b := trimRightSlash b
    if (str "/v1").isSuffixOf b || (str "/v1beta").isSuffixOf b ||
        (str "/v1beta1").isSuffixOf b then b
    else b ++ str "/v1beta"

/-- `ProviderConfig` (option shared across providers). -/
structure ProviderConfig where
  apiKey : List Char
  baseURL : List Char
  authType : List Char
deriving DecidableEq

/-- The auth type after trimming, lowering and defaulting (the
`authType` local of `NewGemini`). -/
def geminiAuthTypeOf (cfg : ProviderConfig) : List Char :=
  if toLowerStr (trimSpace cfg.authType) = [] then str "api_key"
  else toLowerStr (trimSpace cfg.authType)

/-- `NewGemini` (gemini.go): `none` models a construction error. -/
def NewGemini (cfg : ProviderConfig) : Option Gemini :=
  if trimSpace cfg.apiKey = [] then none
  else if ¬geminiAuthTypeOf cfg = str "api_key" ∧
      ¬geminiAuthTypeOf cfg = str "auth_token" then none
  else
    some { baseURL := normalizeGeminiBaseURL cfg.baseURL,
           apiKey := trimSpace cfg.apiKey, authType := geminiAuthTypeOf cfg }

/-- `geminiStreamingPath`. -/
def geminiStreamingPath : List Char := str ":streamGenerateContent"

/-- `geminiNonStreamPath`. -/
def geminiNonStreamPath : List Char := str ":generateContent"

/-- `buildEndpoint` (gemini.go); `none` models the model-required error. -/
def buildEndpoint (g : Gemini) (model : List Char) (stream : Bool) :
    Option (List Char) :=
  let model := trimSpace model
  if model = [] then none
  else
    let escapedModel := pathEscape model
    let pathSuffix := if stream then geminiStreamingPath else geminiNonStreamPath
    let query := if stream then str "?alt=sse" else []
    some (trimRightSlash g.baseURL ++ str "/models/" ++ escapedModel ++ pathSuffix ++ query)

/-- The fields of the `http.Request` that `newRequest` sets. -/
structure GoRequest where
  url : List Char
  contentType : List Char
  userAgent : List Char
  authorization : Option (List Char)
deriving DecidableEq

/-- `browserUserAgent` (openai.go, shared by the Gemini client). -/
def browserUserAgent : List Char :=
  str "Mozilla/5.0 (Macintosh; Intel Mac OS X 10_15_7) AppleWebKit/537.36 (KHTML, like Gecko) Chrome/131.0.0.0 Safari/537.36"

/-- `attachAPIKey` (gemini.go). -/
def attachAPIKey (g : Gemini) (endpoint : List Char) : List Char :=
  if g.authType = str "auth_token" then endpoint
  else if endpoint.contains '?' then endpoint ++ str "&key=" ++ queryEscape g.apiKey
  else endpoint ++ str "?key=" ++ queryEscape g.apiKey

/-- `newRequest` (gemini.go): the URL (with the key attached in query-key
mode) and the headers set on every request. -/
def newRequest (g : Gemini) (endpoint : List Char) : GoRequest :=
  { url := attachAPIKey g endpoint
    contentType := str "application/json"
    userAgent := browserUserAgent
    authorization :=
      if g.authType = str "auth_token" then some (str "Bearer " ++ g.apiKey) else none }

theorem newGemini_authType (cfg : ProviderConfig) (g : Gemini)
    (h : NewGemini cfg = some g) :
    g.authType = str "api_key" ∨ g.authType = str "auth_token" := by
  unfold NewGemini at h
  split_ifs at h with h1 h2
  obtain rfl := Option.some.inj h
  rcases not_and_or.mp h2 with h3 | h3
  · exact Or.inl (not_not.mp h3)
  · exact Or.inr (not_not.mp h3)

/-- The key-parameter suffix appended to the endpoint in query-key mode. -/
def keySuffix (g : Gemini) (endpoint : List Char) : List Char :=
  (if endpoint.contains '?' then str "&key=" else str "?key=") ++ queryEscape g.apiKey

/-- C5: for every request built by the manual client, exactly one
authentication placement is used, and each mode forces its placement: in
bearer mode (`auth_token`) the Authorization header is set and the URL is
left untouched (the key is never appended); in query-key mode (`api_key`,
the default) the key is appended as a URL query parameter and no
Authorization header is set; and every constructed provider is in exactly
one of the two modes, so the placements are never combined and never both
absent. -/
theorem auth_placement_exclusive (cfg : ProviderConfig) (g : Gemini)
    (endpoint : List Char) (h : NewGemini cfg = some g) :
    (g.authType = str "auth_token" →
      (newRequest g endpoint).authorization = some (str "Bearer " ++ g.apiKey) ∧
        (newRequest g endpoint).url = endpoint ∧
        ¬(newRequest g endpoint).url = endpoint ++ keySuffix g endpoint) ∧
    (g.authType = str "api_key" →
      (newRequest g endpoint).authorization = none ∧
        (newRequest g endpoint).url = endpoint ++ keySuffix g endpoint ∧
        ¬(newRequest g endpoint).url = endpoint) ∧
    (g.authType = str "api_key" ∨ g.authType = str "auth_token") ∧
    ¬(g.authType = str "api_key" ∧ g.authType = str "auth_token") := by
  have hkslen : 0 < (keySuffix g endpoint).length := by
    unfold keySuffix
    by_cases hq : '?' ∈ endpoint <;> simp [hq, str]
  have hne : ¬(endpoint ++ keySuffix g endpoint) = endpoint := by
    intro he
    have hl := congrArg List.length he
    simp only [List.length_append] at hl
    omega
  refine ⟨?_, ?_, newGemini_authType cfg g h, ?_⟩
  · intro ha
    have hurl : (newRequest g endpoint).url = endpoint := by
      simp [newRequest, attachAPIKey, ha]
    refine ⟨by simp [newRequest, ha], hurl, ?_⟩
    rw [hurl]
    intro he
    exact hne he.symm
  · intro ha
    have hnb : ¬g.authType = str "auth_token" := by rw [ha]; decide
    have hurl : (newRequest g endpoint).url = endpoint ++ keySuffix g endpoint := by
      simp only [newRequest, attachAPIKey, keySuffix, if_neg hnb]
      by_cases hq : '?' ∈ endpoint <;> simp [hq, List.append_assoc]
    refine ⟨by simp [newRequest, hnb], hurl, ?_⟩
    rw [hurl]
    exact hne
  · rintro ⟨ha, hb⟩
    rw [ha] at hb
    exact absurd hb (by decide)

/-- A provider configuration with a key only (witness helper). -/
def demoCfg : ProviderConfig := { apiKey := str "k", baseURL := [], authType := [] }

/-- The provider `NewGemini demoCfg` constructs (witness helper). -/
def demoGemini : Gemini :=
  { baseURL := defaultGeminiBaseURL, apiKey := str "k", authType := str "api_key" }

/-- Witness for C5 at a concrete configuration and endpoint: the default
(query-key) provider places the key in the URL and sets no header. -/
theorem auth_placement_exclusive_witness :
    (newRequest demoGemini (str "E")).authorization = none ∧
      (newRequest demoGemini (str "E")).url =
        str "E" ++ keySuffix demoGemini (str "E") ∧
      ¬(newRequest demoGemini (str "E")).url = str "E" :=
  (auth_placement_exclusive demoCfg demoGemini (str "E") (by decide)).2.1 rfl

/-! ## Error classification (`checkGeminiResponse`) -/

/-- The `json.Unmarshal` of a response body into the `geminiError`
envelope, abstract (`none` = unmarshal error). -/
def GeminiErrDecode : Type := List Char → Option GeminiError

/-- Errors `checkGeminiResponse` can return. -/
inductive GeminiRespErr where
  /-- the structured payload (`apiErr.Error`), returned directly. -/
  | upstream (e : GeminiErrorPayload)
  /-- `fmt.Errorf` from the raw status code and the trimmed body. -/
  | generic (status : Int) (body : List Char)
deriving DecidableEq

/-- `httpStatusClientErr` (gemini.go). -/
def httpStatusClientErr : Int := 400

/-- `checkGeminiResponse` (gemini.go). -/
def checkGeminiResponse (decodeErr : GeminiErrDecode) (status : Int)
    (body : List Char) : Option GeminiRespErr :=
  if status < httpStatusClientErr then none
  else
    match decodeErr body with
    | some apiErr =>
      match apiErr.error with
      | some p => some (.upstream p)
      | none => some (.generic status (trimSpace body))
    | none => some (.generic status (trimSpace body))

/-- C8: a status at or above the client-error threshold (400) triggers
body inspection: a body decoding to a structured error envelope yields
the structured error (with its code, status token, message) as the
terminal error; any other body yields a generic error from the raw
status and the trimmed body; statuses below the threshold produce no
error. -/
theorem error_classification (decodeErr : GeminiErrDecode) (status : Int)
    (body : List Char) :
    (status < httpStatusClientErr →
      checkGeminiResponse decodeErr status body = none) ∧
    (httpStatusClientErr ≤ status →
      (∀ (env : GeminiError) (p : GeminiErrorPayload),
        decodeErr body = some env → env.error = some p →
        checkGeminiResponse decodeErr status body = some (.upstream p)) ∧
      (decodeErr body = none ∨ (∃ env, decodeErr body = some env ∧ env.error = none) →
        checkGeminiResponse decodeErr status body =
          some (.generic status (trimSpace body)))) := by
  constructor
  · intro h
    simp [checkGeminiResponse, h]
  · intro h
    have h' : ¬status < httpStatusClientErr := not_lt.mpr h
    constructor
    · intro env p henv hp
      simp [checkGeminiResponse, h', henv, hp]
    · rintro (hd | ⟨env, henv, he⟩) <;> simp [checkGeminiResponse, h', *]

/-- The quota-exhausted structured payload of spec test 7 (witness
helper). -/
def quotaPayload : GeminiErrorPayload :=
  { code := 429, status := str "RESOURCE_EXHAUSTED", message := str "quota" }

/-- The quota-exhausted envelope of spec test 7 (witness helper). -/
def quotaEnvelope : GeminiError := { error := some quotaPayload }

/-- Witness for C8: HTTP 429 with a structured quota body classifies as
the upstream error carrying code 429 and status token RESOURCE_EXHAUSTED. -/
theorem error_classification_witness :
    checkGeminiResponse (fun _ => some quotaEnvelope) 429 (str "b") =
      some (.upstream quotaPayload) :=
  ((error_classification (fun _ => some quotaEnvelope) 429 (str "b")).2
      (by decide)).1 quotaEnvelope quotaPayload rfl rfl

/-- C9 (amended): for every model whose trimmed form is non-empty, the
endpoint is the slash-trimmed base URL, "/models/", the URL-path-escaped
TRIMMED model, then the streaming-generation suffix with the SSE query
parameter when streaming and the single-shot suffix with no query
otherwise; normalization trims surrounding whitespace, substitutes the
default base URL when the result is empty, then trims trailing slashes,
keeps a base ending in a recognized API-version segment unchanged, and
otherwise appends the default version segment. -/
theorem endpoint_construction (g : Gemini) (model : List Char) (stream : Bool)
    (base : List Char) (hm : ¬trimSpace model = []) :
    buildEndpoint g model stream =
      some (trimRightSlash g.baseURL ++ str "/models/" ++
        pathEscape (trimSpace model) ++
        (if stream then geminiStreamingPath ++ str "?alt=sse"
         else geminiNonStreamPath)) ∧
    (trimSpace base = [] → normalizeGeminiBaseURL base = defaultGeminiBaseURL) ∧
    (¬trimSpace base = [] →
      (((str "/v1").isSuffixOf (trimRightSlash (trimSpace base)) ||
          (str "/v1beta").isSuffixOf (trimRightSlash (trimSpace base)) ||
          (str "/v1beta1").isSuffixOf (trimRightSlash (trimSpace base))) = true →
        normalizeGeminiBaseURL base = trimRightSlash (trimSpace base)) ∧
      (((str "/v1").isSuffixOf (trimRightSlash (trimSpace base)) ||
          (str "/v1beta").isSuffixOf (trimRightSlash (trimSpace base)) ||
          (str "/v1beta1").isSuffixOf (trimRightSlash (trimSpace base))) = false →
        normalizeGeminiBaseURL base =
          trimRightSlash (trimSpace base) ++ str "/v1beta")) := by
  refine ⟨?_, ?_, ?_⟩
  · cases stream <;> simp [buildEndpoint, hm, List.append_assoc]
  · intro h
    simp [normalizeGeminiBaseURL, h]
  · intro h
    constructor
    · intro hs
      simp [normalizeGeminiBaseURL, h, hs]
    · intro hs
      simp [normalizeGeminiBaseURL, h, hs]

/-- C9 counterexample: for the model name " m " the endpoint is built from
the trimmed model "m", not from the URL-path-escaped original model
"%20m%20" that the claim's formula prescribes. -/
theorem endpoint_construction_counterexample :
    ¬buildEndpoint demoGemini (str " m ") false =
      some (trimRightSlash demoGemini.baseURL ++ str "/models/" ++
        pathEscape (str " m ") ++ geminiNonStreamPath) := by
  decide

/-- Witness for C9 (amended) at a concrete model, base and both paths of
the suffix test. -/
theorem endpoint_construction_witness :
    buildEndpoint demoGemini (str " m ") true =
      some (trimRightSlash demoGemini.baseURL ++ str "/models/" ++
        pathEscape (trimSpace (str " m ")) ++
        (if true then geminiStreamingPath ++ str "?alt=sse"
         else geminiNonStreamPath)) ∧
    (¬trimSpace (str "b/") = [] →
      (((str "/v1").isSuffixOf (trimRightSlash (trimSpace (str "b/"))) ||
          (str "/v1beta").isSuffixOf (trimRightSlash (trimSpace (str "b/"))) ||
          (str "/v1beta1").isSuffixOf (trimRightSlash (trimSpace (str "b/")))) = false →
        normalizeGeminiBaseURL (str "b/") =
          trimRightSlash (trimSpace (str "b/")) ++ str "/v1beta")) :=
  ⟨(endpoint_construction demoGemini (str " m ") true (str "b/") (by decide)).1,
    fun h hs =>
      ((endpoint_construction demoGemini (str " m ") true (str "b/")
        (by decide)).2.2 h).2 hs⟩

/-! ## The shared chat request (`ChatOptions`, option.go) and the
request-shaping of the three clients -/

/-- Values stored in the provider-specific options bag (`map[string]any`),
restricted to the cases the code distinguishes (`toInt`, gemini.go). -/
inductive GoVal where
  | gbool (b : Bool)
  | gint (i : Int)
  | gfloat (q : ℚ)
  | gnum (s : List Char)
  | gstr (s : List Char)
  | gother
deriving DecidableEq

/-- `ChatOptions` (option.go).  `float64` sampling values are modelled as
rationals (only their comparison with zero matters); `format` is the raw
JSON message with `[]` for absent; the callback is passed separately where
needed. -/
structure ChatOptions where
  model : List Char
  prompt : List Char
  systemPrompt : List Char := []
  stream : Bool := false
  think : Bool := false
  temperature : ℚ := 0
  topP : ℚ := 0
  format : List Char := []
  noResponseFormat : Bool := false
  images : List (List Char) := []
  options : List (List Char × GoVal) := []
deriving DecidableEq

/-- Decimal digit run evaluation for `strconv.Atoi`. -/
def digitsValAux (acc : Nat) : List Char → Option Nat
  | [] => some acc
  | c :: cs =>
    if 48 ≤ c.toNat ∧ c.toNat ≤ 57 then digitsValAux (acc * 10 + (c.toNat - 48)) cs
    else none

/-- The value of a non-empty all-digit string, else `none`. -/
def digitsVal : List Char → Option Nat
  | [] => none
  | ds => digitsValAux 0 ds

/-- `strconv.Atoi` (64-bit overflow ignored: the repo only uses small
sampling parameters). -/
def atoi : List Char → Option Int
  | [] => none
  | '+' :: ds => (digitsVal ds).map Int.ofNat
  | '-' :: ds => (digitsVal ds).map fun n => -(Int.ofNat n)
  | ds => (digitsVal ds).map Int.ofNat

/-- Truncation toward zero of a rational (Go's `int(float64)` and the
decimal library's `IntPart`). -/
def ratTrunc (q : ℚ) : Int := if 0 ≤ q then ⌊q⌋ else -⌊-q⌋

/-- `toInt` (gemini.go): the `any` → `*int` conversion switch. -/
def toInt : GoVal → Option Int
  | .gint i => some i
  | .gfloat q => some (ratTrunc q)
  | .gnum s => atoi s
  | .gstr s => atoi (trimSpace s)
  | _ => none

/-- Go map lookup over the assoc-list model: the last binding for a key
wins (later insertions overwrite). -/
def lookupOpt (m : List (List Char × GoVal)) (k : List Char) : Option GoVal :=
  (m.reverse.find? fun p => p.1 == k).map fun p => p.2

/-- `extractTopK` (gemini.go): try `topK`, then `top_k`; a present but
non-convertible value falls through exactly like a missing key. -/
def extractTopK (opts : List (List Char × GoVal)) : Option Int :=
  if opts.isEmpty then none
  else
    match (lookupOpt opts (str "topK")).bind toInt with
    | some i => some i
    | none => (lookupOpt opts (str "top_k")).bind toInt

/-- `geminiGenerationConfig` (gemini.go).  A successfully parsed response
schema is represented by the raw JSON it was parsed from. -/
structure GeminiGenerationConfig where
  temperature : Option ℚ := none
  topP : Option ℚ := none
  topK : Option Int := none
  responseMimeType : List Char := []
  responseSchema : Option (List Char) := none
deriving DecidableEq

/-- `(*geminiGenerationConfig).isEmpty` on a non-nil config. -/
def GeminiGenerationConfig.isEmpty (cfg : GeminiGenerationConfig) : Bool :=
  cfg.temperature = none && cfg.topP = none && cfg.topK = none &&
  cfg.responseMimeType = [] && cfg.responseSchema = none

/-- `buildGenerationConfig` (gemini.go); `validJSON` models
`json.Unmarshal(opts.Format, &schema) == nil`. -/
def buildGenerationConfig (validJSON : List Char → Bool) (opts : ChatOptions) :
    Option GeminiGenerationConfig :=
  let cfg : GeminiGenerationConfig :=
    { temperature := if ¬opts.temperature = 0 then some opts.temperature else none
      topP := if ¬opts.topP = 0 then some opts.topP else none
      topK := extractTopK opts.options }
  if opts.noResponseFormat then
    if cfg.isEmpty then none else some cfg
  else
    let cfg :=
      if ¬opts.format = [] then
        { cfg with
            responseMimeType := str "application/json"
            responseSchema := if validJSON opts.format then some opts.format else none }
      else { cfg with responseMimeType := str "application/json" }
    if cfg.isEmpty then none else some cfg

/-- The OpenAI response-format union (openai.go). -/
inductive OpenAIRespFormat where
  | jsonObject
  | jsonSchema (name : List Char) (strict : Bool) (schema : List Char)
deriving DecidableEq

/-- `toResponseFormat` (openai.go); `validJSON` models
`json.Unmarshal(raw, &schema) == nil`. -/
def toResponseFormat (validJSON : List Char → Bool) (raw : List Char) :
    OpenAIRespFormat :=
  if raw = [] then .jsonObject
  else if trimSpace raw = str "\"json\"" ∨ trimSpace raw = str "json" then .jsonObject
  else if validJSON raw then .jsonSchema (str "dino_schema") true raw
  else .jsonObject

/-- The parameters `OpenAI.Chat` builds (the fields relevant to format
negotiation; messages are omitted). -/
structure OpenAIParams where
  model : List Char
  temperature : ℚ
  topP : ℚ
  responseFormat : Option OpenAIRespFormat
deriving DecidableEq

/-- The parameter-building portion of `OpenAI.Chat` (openai.go):
`ResponseFormat` is attached only when suppression is not requested. -/
def openaiBuildParams (validJSON : List Char → Bool) (opts : ChatOptions) :
    OpenAIParams :=
  { model := opts.model
    temperature := opts.temperature
    topP := opts.topP
    responseFormat :=
      if opts.noResponseFormat then none
      else some (toResponseFormat validJSON opts.format) }

/-- `ensureFormat` (ollama.go). -/
def ensureFormat (f : List Char) : List Char :=
  if f = [] then str "\"json\"" else f

/-- `streamPtr` (ollama.go). -/
def streamPtr (stream : Bool) : Option Bool :=
  if stream then none else some false

/-- `mergeOptions` (ollama.go): the derived entries followed by the user's
options; on lookup the later (user) binding wins, matching map overwrite
semantics. -/
def mergeOptions (opts : ChatOptions) : List (List Char × GoVal) :=
  [(str "enable_thinking", GoVal.gbool opts.think)] ++
    (if ¬opts.temperature = 0 then [(str "temperature", GoVal.gfloat opts.temperature)]
     else []) ++
    (if ¬opts.topP = 0 then [(str "top_p", GoVal.gfloat opts.topP)] else []) ++
    opts.options

/-- An Ollama chat message (`api.Message`). -/
structure OllamaMessage where
  role : List Char
  content : List Char
  images : List (List Char) := []
deriving DecidableEq

/-- The `api.ChatRequest` that `Ollama.Chat` hands to the SDK. -/
structure OllamaChatRequest where
  model : List Char
  messages : List OllamaMessage
  think : Bool
  options : List (List Char × GoVal)
  format : List Char
  stream : Option Bool
deriving DecidableEq

/-- The observable outcome of `Ollama.Chat` up to network I/O. -/
inductive OllamaOutcome where
  /-- `ErrNilClient`, before any I/O. -/
  | errNilClient
  /-- the SDK call `o.client.Chat(ctx, req, respFunc)`, which performs the
  network request. -/
  | networkCall (req : OllamaChatRequest)
deriving DecidableEq

/-- `Ollama.Chat` (ollama.go) up to the point of network I/O: the
nil-client check, message assembly, and the request handed to the SDK.
No other validation happens before the network call. -/
def ollamaChat (nilClient : Bool) (opts : ChatOptions) : OllamaOutcome :=
  if nilClient then .errNilClient
  else
    let messages :=
      (if ¬trimSpace opts.systemPrompt = [] then
        [({ role := str "system", content := trimSpace opts.systemPrompt } : OllamaMessage)]
       else []) ++
      [({ role := str "user", content := opts.prompt, images := opts.images } : OllamaMessage)]
    .networkCall
      { model := opts.model
        messages := messages
        think := opts.think
        options := mergeOptions opts
        format := ensureFormat opts.format
        stream := streamPtr opts.stream }

/-- `geminiGenerateRequest` (gemini.go). -/
structure GeminiGenerateRequest where
  contents : List GeminiContent
  systemInstruction : Option GeminiContent
  generationConfig : Option GeminiGenerationConfig
deriving DecidableEq

/-- `buildContents` (gemini.go); `sniff` models `http.DetectContentType`
and `b64` base64 encoding (bytes as chars).  `none` models the
prompt-or-images-required error. -/
def buildContents (sniff b64 : List Char → List Char) (opts : ChatOptions) :
    Option (List GeminiContent × Option GeminiContent) :=
  let promptParts :=
    if ¬trimSpace opts.prompt = [] then
      [({ text := trimSpace opts.prompt } : GeminiPart)]
    else []
  let imgParts :=
    ((opts.images.filter fun img => ¬img.isEmpty).map fun img =>
      ({ text := []
         inlineData := some
           { mimeType :=
               if (str "image/").isPrefixOf (sniff img) then sniff img
               else str "image/png"
             data := b64 img } } : GeminiPart))
  let parts := promptParts ++ imgParts
  if parts = [] then none
  else
    some ([{ role := str "user", parts := parts }],
      if ¬trimSpace opts.systemPrompt = [] then
        some { role := [], parts := [{ text := trimSpace opts.systemPrompt }] }
      else none)

/-- The observable outcome of `Gemini.Chat` up to network I/O. -/
inductive GeminiChatOutcome where
  /-- nil client/nil HTTP client, before any I/O. -/
  | errNilClient
  /-- "model is required", before any I/O. -/
  | errModelRequired
  /-- "prompt or images are required", before any I/O. -/
  | errPromptOrImagesRequired
  /-- `stream`/`nonStream`, which immediately perform the HTTP request. -/
  | network (endpoint : List Char) (body : GeminiGenerateRequest) (stream : Bool)
deriving DecidableEq

/-- `Gemini.Chat` (gemini.go) up to the point of network I/O: nil-client
check, blank-model check, request-body construction
(`buildRequestBody` = contents + generation config; the JSON encoding,
which cannot fail for this request shape, is elided), endpoint
construction, then the streaming or non-streaming HTTP call. -/
def geminiChat (sniff b64 : List Char → List Char) (validJSON : List Char → Bool)
    (nilClient : Bool) (g : Gemini) (opts : ChatOptions) : GeminiChatOutcome :=
  if nilClient then .errNilClient
  else if trimSpace opts.model = [] then .errModelRequired
  else
    match buildContents sniff b64 opts with
    | none => .errPromptOrImagesRequired
    | some (contents, sys) =>
      match buildEndpoint g opts.model opts.stream with
      | none => .errModelRequired
      | some endpoint =>
        .network endpoint
          { contents := contents
            systemInstruction := sys
            generationConfig := buildGenerationConfig validJSON opts }
          opts.stream

/-- C6 (amended): a request whose model is blank fails in the manual
Gemini client with the model-required configuration error before any
network I/O; the SDK-based Ollama client performs no model check — with a
usable client it always proceeds to the SDK's network call, carrying the
request's model verbatim. -/
theorem empty_model_check (sniff b64 : List Char → List Char)
    (validJSON : List Char → Bool) (g : Gemini) (opts : ChatOptions)
    (h : trimSpace opts.model = []) :
    geminiChat sniff b64 validJSON false g opts = .errModelRequired ∧
    ∃ req : OllamaChatRequest,
      ollamaChat false opts = .networkCall req ∧ req.model = opts.model := by
  constructor
  · simp [geminiChat, h]
  · exact ⟨_, rfl, rfl⟩

/-- C6 counterexample: with an empty model the Ollama client does not fail
before network I/O — it hands the SDK a network request whose model is
empty. -/
theorem empty_model_ollama_counterexample :
    ollamaChat false { model := [], prompt := str "p" } =
      .networkCall
        { model := []
          messages := [{ role := str "user", content := str "p" }]
          think := false
          options := [(str "enable_thinking", GoVal.gbool false)]
          format := str "\"json\""
          stream := some false } := by
  rfl

/-- Witness for C6 (amended) at a concrete blank-model request. -/
theorem empty_model_check_witness :
    geminiChat id id (fun _ => false) false demoGemini
        { model := str " ", prompt := str "p" } = .errModelRequired ∧
    ∃ req : OllamaChatRequest,
      ollamaChat false { model := str " ", prompt := str "p" } = .networkCall req ∧
        req.model = str " " :=
  empty_model_check id id (fun _ => false) demoGemini
    { model := str " ", prompt := str "p" } (by decide)

/-- A suppress-format request (witness helper). -/
def demoSuppressOpts : ChatOptions :=
  { model := str "m", prompt := str "p", noResponseFormat := true }

/-- C7 (amended): with the suppress-format flag set, the Gemini client's
generation config (when emitted at all) carries no response MIME type and
no response schema, and the OpenAI client's parameters carry no
response-format union; the Ollama client ignores the flag — the request
it sends always carries a non-empty format field (the provided format, or
the JSON sentinel by default). -/
theorem suppress_format (validJSON : List Char → Bool) (opts : ChatOptions)
    (h : opts.noResponseFormat = true) :
    (∀ cfg : GeminiGenerationConfig,
      buildGenerationConfig validJSON opts = some cfg →
      cfg.responseMimeType = [] ∧ cfg.responseSchema = none) ∧
    (openaiBuildParams validJSON opts).responseFormat = none ∧
    (∀ req : OllamaChatRequest, ollamaChat false opts = .networkCall req →
      req.format = ensureFormat opts.format ∧ ¬req.format = []) := by
  refine ⟨?_, ?_, ?_⟩
  · intro cfg hcfg
    simp only [buildGenerationConfig, h, if_true] at hcfg
    split_ifs at hcfg
    all_goals obtain rfl := Option.some.inj hcfg
    all_goals exact ⟨rfl, rfl⟩
  · simp [openaiBuildParams, h]
  · intro req hreq
    simp only [ollamaChat, Bool.false_eq_true, if_false] at hreq
    obtain rfl := (OllamaOutcome.networkCall.injEq _ _).mp hreq
    refine ⟨rfl, ?_⟩
    show ¬ensureFormat opts.format = []
    unfold ensureFormat
    split_ifs with hf
    · simp [str]
    · exact hf

/-- C7 counterexample: with the suppress-format flag set the Ollama client
still attaches a response-format constraint — the defaulted JSON
sentinel. -/
theorem suppress_format_ollama_counterexample :
    ollamaChat false { model := str "m", prompt := str "p", noResponseFormat := true } =
      .networkCall
        { model := str "m"
          messages := [{ role := str "user", content := str "p" }]
          think := false
          options := [(str "enable_thinking", GoVal.gbool false)]
          format := str "\"json\""
          stream := some false } := by
  rfl

/-- Witness for C7 (amended) at a concrete suppress-format request. -/
theorem suppress_format_witness :
    (∀ cfg : GeminiGenerationConfig,
      buildGenerationConfig (fun _ => false) demoSuppressOpts = some cfg →
      cfg.responseMimeType = [] ∧ cfg.responseSchema = none) ∧
    (openaiBuildParams (fun _ => false) demoSuppressOpts).responseFormat = none ∧
    (∀ req : OllamaChatRequest,
      ollamaChat false demoSuppressOpts = .networkCall req →
      req.format = ensureFormat demoSuppressOpts.format ∧ ¬req.format = []) :=
  suppress_format (fun _ => false) demoSuppressOpts rfl

/-! ## Bounding-box denormalization (`internal/utils`) -/

/-- `Clamp` (utils): bound `v` into `[lo, hi]`. -/
def Clamp (v lo hi : Int) : Int :=
  if v < lo then lo else if v > hi then hi else v

/-- Round half away from zero to an integer (the rounding used by the
shopspring decimal `DivRound`). -/
def rhaz (q : ℚ) : Int :=
  if 0 ≤ q then ⌊q + 1 / 2⌋ else -⌊-q + 1 / 2⌋

/-- shopspring `Div` at the default `DivisionPrecision` of 16: round the
exact quotient half away from zero at 16 decimal places. -/
def decimalDiv (a b : ℚ) : ℚ :=
  (rhaz (a / b * 10 ^ 16) : ℚ) / 10 ^ 16

/-- `DenormalizeBbox` (utils).  The four coordinate strings are parsed by
`decimal.NewFromString` with the error ignored (a failed parse leaves the
zero value); the embedding takes the parsed rational values directly, so
universal quantification over them covers every input string.  Each
coordinate is scaled by the image dimension over the scale (exact
product, rounded division, truncation toward zero via `IntPart`), each
pair is swapped into order, and every result is clamped into the image
bounds. -/
def DenormalizeBbox (fx1 fy1 fx2 fy2 : ℚ) (width height scale : Int) :
    Int × Int × Int × Int :=
  let x1 := ratTrunc (decimalDiv (fx1 * (width : ℚ)) (scale : ℚ))
  let y1 := ratTrunc (decimalDiv (fy1 * (height : ℚ)) (scale : ℚ))
  let x2 := ratTrunc (decimalDiv (fx2 * (width : ℚ)) (scale : ℚ))
  let y2 := ratTrunc (decimalDiv (fy2 * (height : ℚ)) (scale : ℚ))
  let x1s := if x1 > x2 then x2 else x1
  let x2s := if x1 > x2 then x1 else x2
  let y1s := if y1 > y2 then y2 else y1
  let y2s := if y1 > y2 then y1 else y2
  let maxX := if width - 1 < 0 then 0 else width - 1
  let maxY := if height - 1 < 0 then 0 else height - 1
  (Clamp x1s 0 maxX, Clamp y1s 0 maxY, Clamp x2s 0 maxX, Clamp y2s 0 maxY)

theorem clamp_order_bounds (a b m : Int) :
    0 ≤ Clamp (if a > b then b else a) 0 (if m < 0 then 0 else m) ∧
    Clamp (if a > b then b else a) 0 (if m < 0 then 0 else m) ≤
      Clamp (if a > b then a else b) 0 (if m < 0 then 0 else m) ∧
    (0 ≤ m → Clamp (if a > b then a else b) 0 (if m < 0 then 0 else m) ≤ m) := by
  unfold Clamp
  split_ifs <;> omega

/-- C10: for width ≥ 1, height ≥ 1 and scale ≥ 1, `DenormalizeBbox`
returns `(x1, y1, x2, y2)` with `0 ≤ x1 ≤ x2 ≤ width - 1` and
`0 ≤ y1 ≤ y2 ≤ height - 1`: each parsed coordinate is scaled by the image
dimension over the scale, a pair is swapped when the first exceeds the
second, and every result is clamped into the image bounds. -/
theorem denormalize_bbox_bounds (fx1 fy1 fx2 fy2 : ℚ) (width height scale : Int)
    (hw : 1 ≤ width) (hh : 1 ≤ height) (_hs : 1 ≤ scale) :
    0 ≤ (DenormalizeBbox fx1 fy1 fx2 fy2 width height scale).1 ∧
    (DenormalizeBbox fx1 fy1 fx2 fy2 width height scale).1 ≤
      (DenormalizeBbox fx1 fy1 fx2 fy2 width height scale).2.2.1 ∧
    (DenormalizeBbox fx1 fy1 fx2 fy2 width height scale).2.2.1 ≤ width - 1 ∧
    0 ≤ (DenormalizeBbox fx1 fy1 fx2 fy2 width height scale).2.1 ∧
    (DenormalizeBbox fx1 fy1 fx2 fy2 width height scale).2.1 ≤
      (DenormalizeBbox fx1 fy1 fx2 fy2 width height scale).2.2.2 ∧
    (DenormalizeBbox fx1 fy1 fx2 fy2 width height scale).2.2.2 ≤ height - 1 := by
  have hx := clamp_order_bounds (ratTrunc (decimalDiv (fx1 * (width : ℚ)) (scale : ℚ)))
    (ratTrunc (decimalDiv (fx2 * (width : ℚ)) (scale : ℚ))) (width - 1)
  have hy := clamp_order_bounds (ratTrunc (decimalDiv (fy1 * (height : ℚ)) (scale : ℚ)))
    (ratTrunc (decimalDiv (fy2 * (height : ℚ)) (scale : ℚ))) (height - 1)
  exact ⟨hx.1, hx.2.1, hx.2.2 (by omega), hy.1, hy.2.1, hy.2.2 (by omega)⟩

/-- Witness for C10 at the repository's own test vector
(`TestDenormalizeBbox_OrderSwap`). -/
theorem denormalize_bbox_bounds_witness :
    0 ≤ (DenormalizeBbox 800 300 200 100 1000 500 1000).1 ∧
    (DenormalizeBbox 800 300 200 100 1000 500 1000).1 ≤
      (DenormalizeBbox 800 300 200 100 1000 500 1000).2.2.1 ∧
    (DenormalizeBbox 800 300 200 100 1000 500 1000).2.2.1 ≤ 1000 - 1 ∧
    0 ≤ (DenormalizeBbox 800 300 200 100 1000 500 1000).2.1 ∧
    (DenormalizeBbox 800 300 200 100 1000 500 1000).2.1 ≤
      (DenormalizeBbox 800 300 200 100 1000 500 1000).2.2.2 ∧
    (DenormalizeBbox 800 300 200 100 1000 500 1000).2.2.2 ≤ 500 - 1 :=
  denormalize_bbox_bounds 800 300 200 100 1000 500 1000
    (by decide) (by decide) (by decide)

/-- Sanity check of the numeric model against the repository's
`TestDenormalizeBbox_OrderSwap` expected output. -/
theorem denormalize_bbox_test_vector :
    DenormalizeBbox 800 300 200 100 1000 500 1000 = (200, 50, 800, 150) := by
  norm_num [DenormalizeBbox, decimalDiv, ratTrunc, rhaz, Clamp]

end Dino
